import Mathlib

/-!
Verification of `backend/ask_service.py`.

The Python module is shallowly embedded below:
* `Val` models dynamic Python values (`None`, `str`, `list`, `dict`);
  dicts are association lists in insertion order with string keys.
* `build_context`, `_collapse_skill_lines` and `answer_question` are
  translated function by function; fallible operations (attribute access
  on a non-dict, `+=` on an unsupported type) return `Except`, mirroring
  Python exceptions, and the network call is cut off at the point the
  request would be sent (`Outcome.apiRequest` carries the assembled user
  message).
* Python `str.strip`, `str.lower`, `str.split("\n")` and `"\n".join` are
  modelled over the character list of the string (`pyStripL`, `pyLower`,
  `splitNl`, `joinNl`), with the Python ASCII whitespace set.
-/

/-- A dynamic Python value, as far as `ask_service.py` can observe one:
`None`, a string, a list, or a string-keyed dict (association list in
insertion order). -/
inductive Val where
  | none : Val
  | str : String → Val
  | list : List Val → Val
  | dict : List (String × Val) → Val

/-- Python truthiness for `Val`: `None`, `""`, `[]` and the empty dict are falsy. -/
def truthy : Val → Bool
  | Val.none => false
  | Val.str s => !(s == "")
  | Val.list vs => !vs.isEmpty
  | Val.dict kvs => !kvs.isEmpty

/-- Is the value a Python dict (`isinstance(v, dict)`)? -/
def isDictB : Val → Bool
  | Val.dict _ => true
  | _ => false

/-- Python `d.get(k)`: the stored value, or `None` when the key is missing. -/
def pyGet (d : List (String × Val)) (k : String) : Val :=
  match d.find? (fun kv => kv.1 == k) with
  | Option.some kv => kv.2
  | Option.none => Val.none

/-- Python `d.get(k, default)`: the stored value, or `default` when the key is missing. -/
def pyGetD (d : List (String × Val)) (k : String) (dflt : Val) : Val :=
  match d.find? (fun kv => kv.1 == k) with
  | Option.some kv => kv.2
  | Option.none => dflt

/-- Python `a or b`. -/
def pyOr (a b : Val) : Val :=
  if truthy a then a else b

/-- Calling a `dict` method (`.get`, `.items`) on a value: succeeds only on a
dict, otherwise raises `AttributeError` as Python does. -/
def asDict : Val → Except String (List (String × Val))
  | Val.dict kvs => Except.ok kvs
  | _ => Except.error "AttributeError"

mutual

/-- Python `repr` of a value, used by `str` on containers. -/
def pyRepr : Val → String
  | Val.none => "None"
  | Val.str s => "\x27" ++ s ++ "\x27"
  | Val.list vs => "[" ++ pyReprList vs ++ "]"
  | Val.dict kvs => "\x7b" ++ pyReprDict kvs ++ "\x7d"

def pyReprList : List Val → String
  | [] => ""
  | [v] => pyRepr v
  | v :: vs => pyRepr v ++ ", " ++ pyReprList vs

def pyReprDict : List (String × Val) → String
  | [] => ""
  | [kv] => "\x27" ++ kv.1 ++ "\x27: " ++ pyRepr kv.2
  | kv :: kvs => "\x27" ++ kv.1 ++ "\x27: " ++ pyRepr kv.2 ++ ", " ++ pyReprDict kvs

end

/-- Python `str(v)` as used in f-strings: strings unchanged, `None` is `"None"`,
containers render by `repr`. -/
def pyStr : Val → String
  | Val.str s => s
  | v => pyRepr v

/-- The character class Python `str.strip()` removes (ASCII whitespace). -/
def pyIsSpace (c : Char) : Bool :=
  c == ' ' || c == '\t' || c == '\n' || c == '\r' || c == '\x0b' || c == '\x0c'

/-- Python `str.strip()` over a character list. -/
def pyStripL (cs : List Char) : List Char :=
  ((cs.dropWhile pyIsSpace).reverse.dropWhile pyIsSpace).reverse

/-- Python `str.strip()` on a string. -/
def pyStripS (s : String) : String :=
  String.mk (pyStripL s.data)

/-- Python `str.lower()` (ASCII case folding). -/
def pyLower (s : String) : String :=
  String.mk (s.data.map Char.toLower)

/-! ## The response normalizer `_collapse_skill_lines`

The Python function splits the text on `"\n"`, scans the lines with an
index `i` and a lookahead index `j`, and rejoins with `"\n"`. Lines are
handled as character lists; the `while` loop becomes fuel-bounded
recursion (`collapseGoFuel`), the fuel being the number of remaining
lines, which the loop never exceeds since every step consumes at least
one line. -/

/-- Python `text.split("\n")` over the character list. -/
def splitNl : List Char → List (List Char)
  | [] => [[]]
  | c :: cs =>
    match splitNl cs with
    | [] => [[]]
    | p :: ps => if c == '\n' then [] :: p :: ps else (c :: p) :: ps

/-- Python `"\n".join` over character-list lines. -/
def joinNl : List (List Char) → List Char
  | [] => []
  | [p] => p
  | p :: ps => p ++ '\n' :: joinNl ps

/-- Python `s.startswith(c)` for a single-character needle. -/
def startsWith1 (c : Char) : List Char → Bool
  | [] => false
  | d :: _ => d == c

/-- Line 108: `stripped and " " in stripped and len(stripped) < 45 and not
stripped.startswith(("-", "*", "#"))` — the header test, on the stripped line. -/
def isHeaderLine (s : List Char) : Bool :=
  !s.isEmpty && s.contains ' ' && decide (s.length < 45) &&
    !(startsWith1 '-' s || startsWith1 '*' s || startsWith1 '#' s)

/-- Lines 113-120: the candidate test `looks_like_single_item`, on the stripped line. -/
def looksLikeSingleItem (s : List Char) : Bool :=
  !s.isEmpty && !startsWith1 '-' s && !startsWith1 '*' s && !startsWith1 '#' s &&
    !s.contains ',' && decide (s.length < 55)

/-- Lines 125-128: the two `break` conditions of the collection loop, on the
stripped lookahead line. Note the length bound here is `> 55`, not `>= 55`. -/
def runBreakB (s : List Char) : Bool :=
  s.isEmpty || startsWith1 '#' s || startsWith1 '-' s || startsWith1 '*' s ||
    s.contains ',' || decide (55 < s.length)

/-- Lines 123-130: the collection loop. Starting at the line after the
candidate, strip each line and collect it until a `break` condition holds. -/
def collectRun : List (List Char) → List (List Char)
  | [] => []
  | l :: ls =>
    let s := pyStripL l
    if runBreakB s then [] else s :: collectRun ls

/-- Python `", ".join` over character-list lines. -/
def joinComma : List (List Char) → List Char
  | [] => []
  | [p] => p
  | p :: ps => p ++ ',' :: ' ' :: joinComma ps

/-- Lines 101-136: the scanning `while` loop of `_collapse_skill_lines`,
with fuel bounding the number of iterations. Each iteration consumes at
least one line, so fuel `lines.length` (see `collapseLines`) is enough. -/
def collapseGoFuel : Nat → List (List Char) → List (List Char)
  | 0, _ => []
  | _ + 1, [] => []
  | fuel + 1, l :: ls =>
    let s := pyStripL l
    if isHeaderLine s then
      l :: collapseGoFuel fuel ls
    else if looksLikeSingleItem s then
      let run := s :: collectRun ls
      if 3 ≤ run.length then
        joinComma run :: collapseGoFuel fuel (ls.drop (run.length - 1))
      else
        l :: collapseGoFuel fuel ls
    else
      l :: collapseGoFuel fuel ls

/-- The full line scan of `_collapse_skill_lines`. -/
def collapseLines (lines : List (List Char)) : List (List Char) :=
  collapseGoFuel lines.length lines

/-- Whether the scan ever takes the merge branch (collects a run of at
least 3 lines at a candidate position); same control flow as `collapseGoFuel`. -/
def hasMergeFuel : Nat → List (List Char) → Bool
  | 0, _ => false
  | _ + 1, [] => false
  | fuel + 1, l :: ls =>
    let s := pyStripL l
    if isHeaderLine s then
      hasMergeFuel fuel ls
    else if looksLikeSingleItem s then
      if 3 ≤ (s :: collectRun ls).length then true
      else hasMergeFuel fuel ls
    else
      hasMergeFuel fuel ls

/-- Whether `_collapse_skill_lines` merges any run on this line list. -/
def hasMerge (lines : List (List Char)) : Bool :=
  hasMergeFuel lines.length lines

/-- Lines 98-137: `_collapse_skill_lines(text)`. -/
def _collapse_skill_lines (text : String) : String :=
  String.mk (joinNl (collapseLines (splitNl text.data)))

example : _collapse_skill_lines "Python\nC++\nRust" = "Python, C++, Rust" := by rfl

example : _collapse_skill_lines "Python\nC++" = "Python\nC++" := by rfl

example : _collapse_skill_lines "Technical Skills\nPython\nC++\nRust" =
    "Technical Skills\nPython, C++, Rust" := by rfl

/-! ## The context builder `build_context`

Lines 33-95. Each top-level section of the Python function becomes one
definition producing its list of `parts`; `contextParts` concatenates
them in program order and `build_context` joins with `"\n"` and strips.
Exceptions Python would raise (attribute access on a non-dict value,
`+=` between incompatible types) surface as `Except.error`. -/

/-- Lines 41-44: the contact sub-block of the profile section. -/
def contactLines (v : Val) : Except String (List String) :=
  if truthy v then
    match asDict v with
    | Except.error e => Except.error e
    | Except.ok c =>
      Except.ok ["Email: " ++ pyStr (pyGetD c "email" (Val.str "")),
                 "Phone: " ++ pyStr (pyGetD c "phone" (Val.str ""))]
  else Except.ok []

/-- Lines 45-48: the links sub-block of the profile section. -/
def linkLines (v : Val) : Except String (List String) :=
  if truthy v then
    match asDict v with
    | Except.error e => Except.error e
    | Except.ok l =>
      Except.ok ["GitHub: " ++ pyStr (pyGetD l "github" (Val.str "")),
                 "LinkedIn: " ++ pyStr (pyGetD l "linkedin" (Val.str ""))]
  else Except.ok []

/-- Lines 37-49: the profile section. A truthy non-dict value raises at
`profile.get("name", "")`. -/
def profileParts (v : Val) : Except String (List String) :=
  if truthy v then
    match asDict v with
    | Except.error e => Except.error e
    | Except.ok p =>
      match contactLines (pyOr (pyGet p "contact") (Val.dict [])) with
      | Except.error e => Except.error e
      | Except.ok cs =>
        match linkLines (pyOr (pyGet p "links") (Val.dict [])) with
        | Except.error e => Except.error e
        | Except.ok lks =>
          Except.ok (["## Profile",
                      "Name: " ++ pyStr (pyGetD p "name" (Val.str "")),
                      "Job title: " ++ pyStr (pyGetD p "jobTitle" (Val.str ""))]
                     ++ cs ++ lks ++ [""])
  else Except.ok []

/-- Lines 54-56: the two lines produced for one experience entry. -/
def expEntry (job : List (String × Val)) : List String :=
  ["- " ++ pyStr (pyGetD job "role" (Val.str "")) ++ " at "
       ++ pyStr (pyGetD job "company" (Val.str "N/A")) ++ " ("
       ++ pyStr (pyGetD job "dates" (Val.str "")) ++ ")",
   "  " ++ pyStr (pyGetD job "description" (Val.str ""))]

/-- The `for job in experience` loop body over the entries; a non-dict
entry raises at `job.get`. -/
def expEntries : List Val → Except String (List String)
  | [] => Except.ok []
  | j :: js =>
    match asDict j with
    | Except.error e => Except.error e
    | Except.ok d =>
      match expEntries js with
      | Except.error e => Except.error e
      | Except.ok rest => Except.ok (expEntry d ++ rest)

/-- Lines 51-57: the experience section. Iterating a truthy non-list value
yields strings (characters of a string, keys of a dict), whose `.get`
raises; since a truthy value iterates at least once, this is an error. -/
def experienceParts (v : Val) : Except String (List String) :=
  if truthy v then
    match v with
    | Val.list jobs =>
      match expEntries jobs with
      | Except.error e => Except.error e
      | Except.ok entries => Except.ok (["## Experience"] ++ entries ++ [""])
    | _ => Except.error "AttributeError"
  else Except.ok []

/-- Lines 62-64: the two lines produced for one project entry. -/
def projEntry (p : List (String × Val)) : List String :=
  ["- " ++ pyStr (pyGetD p "name" (Val.str "")) ++ " ("
       ++ pyStr (pyGetD p "url" (Val.str "")) ++ ")",
   "  " ++ pyStr (pyGetD p "description" (Val.str ""))]

/-- The `for p in projects` loop body over the entries. -/
def projEntries : List Val → Except String (List String)
  | [] => Except.ok []
  | p :: ps =>
    match asDict p with
    | Except.error e => Except.error e
    | Except.ok d =>
      match projEntries ps with
      | Except.error e => Except.error e
      | Except.ok rest => Except.ok (projEntry d ++ rest)

/-- Lines 59-65: the projects section. -/
def projectsParts (v : Val) : Except String (List String) :=
  if truthy v then
    match v with
    | Val.list ps =>
      match projEntries ps with
      | Except.error e => Except.error e
      | Except.ok entries => Except.ok (["## Projects"] ++ entries ++ [""])
    | _ => Except.error "AttributeError"
  else Except.ok []

/-- Python `x += t` for a string `t`: string concatenation on a `str`,
extension by the characters of `t` on a `list`, `TypeError` otherwise. -/
def pyIAddStr : Val → String → Except String Val
  | Val.str s, t => Except.ok (Val.str (s ++ t))
  | Val.list vs, t => Except.ok (Val.list (vs ++ t.data.map (fun c => Val.str (String.mk [c]))))
  | _, _ => Except.error "TypeError"

/-- Lines 70-78: the lines produced for one education entry. -/
def eduEntry (e : List (String × Val)) : Except String (List String) :=
  let line0 := pyOr (pyGet e "degree") (pyOr (pyGet e "program") (Val.str ""))
  let step1 : Except String Val :=
    if truthy (pyGet e "institution")
    then pyIAddStr line0 (" - " ++ pyStr (pyGet e "institution"))
    else Except.ok line0
  match step1 with
  | Except.error e1 => Except.error e1
  | Except.ok line1 =>
    let step2 : Except String Val :=
      if truthy (pyGet e "graduationYear") || truthy (pyGet e "dates")
      then pyIAddStr line1 (" (" ++ pyStr (pyOr (pyGet e "graduationYear") (pyGet e "dates")) ++ ")")
      else Except.ok line1
    match step2 with
    | Except.error e2 => Except.error e2
    | Except.ok line2 =>
      Except.ok (["- " ++ pyStr line2]
        ++ (if truthy (pyGet e "description")
            then ["  " ++ pyStr (pyGet e "description")] else []))

/-- The `for e in education` loop body over the entries. -/
def eduEntries : List Val → Except String (List String)
  | [] => Except.ok []
  | e :: es =>
    match asDict e with
    | Except.error err => Except.error err
    | Except.ok d =>
      match eduEntry d with
      | Except.error err => Except.error err
      | Except.ok lines =>
        match eduEntries es with
        | Except.error err => Except.error err
        | Except.ok rest => Except.ok (lines ++ rest)

/-- Lines 67-79: the education section. -/
def educationParts (v : Val) : Except String (List String) :=
  if truthy v then
    match v with
    | Val.list es =>
      match eduEntries es with
      | Except.error e => Except.error e
      | Except.ok entries => Except.ok (["## Education"] ++ entries ++ [""])
    | _ => Except.error "AttributeError"
  else Except.ok []

/-- Lines 84-91: the body of `for key, value in skills.items()`:
skip the `"notes"` key and falsy values, join list values with `", "`,
render scalars directly. -/
def skillLine (key : String) (value : Val) : List String :=
  if key == "notes" then []
  else if truthy value then
    match value with
    | Val.list vs => [key ++ ": " ++ String.intercalate ", " (vs.map pyStr)]
    | v => [key ++ ": " ++ pyStr v]
  else []

/-- Lines 81-93: the skills section; only processed when the value is a
truthy dict (`if skills and isinstance(skills, dict)`), so it never raises. -/
def skillsParts (v : Val) : List String :=
  match v with
  | Val.dict kvs =>
    if truthy (Val.dict kvs) then
      ["## Skills"]
      ++ (kvs.map (fun kv => skillLine kv.1 kv.2)).flatten
      ++ (if truthy (pyGet kvs "notes") then ["Notes: " ++ pyStr (pyGet kvs "notes")] else [])
    else []
  | _ => []

/-- Lines 33-93: the `parts` list accumulated by `build_context`, section
by section in program order. -/
def contextParts (data : List (String × Val)) : Except String (List String) :=
  match profileParts (pyOr (pyGet data "profile") (Val.dict [])) with
  | Except.error e => Except.error e
  | Except.ok pr =>
    match experienceParts (pyOr (pyGet data "experience") (Val.list [])) with
    | Except.error e => Except.error e
    | Except.ok ex =>
      match projectsParts (pyOr (pyGet data "projects") (Val.list [])) with
      | Except.error e => Except.error e
      | Except.ok pj =>
        match educationParts (pyOr (pyGet data "education") (Val.list [])) with
        | Except.error e => Except.error e
        | Except.ok ed =>
          Except.ok (pr ++ ex ++ pj ++ ed
                     ++ skillsParts (pyOr (pyGet data "skills") (Val.dict [])))

/-- Lines 33-95: `build_context(data)` — `"\n".join(parts).strip()`. -/
def build_context (data : List (String × Val)) : Except String String :=
  match contextParts data with
  | Except.error e => Except.error e
  | Except.ok parts => Except.ok (pyStripS (String.intercalate "\n" parts))

example : build_context [] = Except.ok "" := by rfl

example :
    build_context [("skills", Val.dict [("Frontend", Val.list [Val.str "React", Val.str "Next.js", Val.str "TypeScript"]), ("notes", Val.str "n/a")])]
      = Except.ok "## Skills\nFrontend: React, Next.js, TypeScript\nNotes: n/a" := by rfl

/-! ## The orchestration function `answer_question`

Lines 140-180. The environment is modelled as the optional value of
`GROQ_API_KEY`; a conversation turn is a Python dict like the CV data.
The embedding stops where the Python function calls
`client.chat.completions.create`: the `Outcome` of a run is either a
raised exception (`raised`, carrying the message), a value returned
without any network call (`returned`), or the single outbound request,
carrying the assembled user message (`apiRequest`). A `None` history and
an empty history are both falsy and behave identically, so the history
parameter is a plain list. -/

/-- Line 142-143: `not api_key or not api_key.strip()` over the optional
environment value (`os.environ.get` yields `None` when unset). -/
def keyMissing : Option String → Bool
  | Option.none => true
  | Option.some s => !(!(s == "")) || !(!(pyStripS s == ""))

/-- Lines 154-159: rendering of one history entry: `None`-default the role
to `"user"` and the content to `""`, lower-case the role, strip the
content, skip the entry if the stripped content is empty, else produce
`"{label}: {content}\n"`. A truthy non-string role or content raises at
`.lower()` / `.strip()`. -/
def renderTurn (msg : List (String × Val)) : Except String (Option String) :=
  match pyOr (pyGet msg "role") (Val.str "user"), pyOr (pyGet msg "content") (Val.str "") with
  | Val.str r, Val.str c =>
    let role := pyLower r
    let content := pyStripS c
    if content == "" then Except.ok Option.none
    else
      Except.ok (Option.some ((if role == "assistant" then "Assistant" else "User")
        ++ ": " ++ content ++ "\n"))
  | _, _ => Except.error "AttributeError"

/-- The `for msg in history[-6:]` loop: collect the rendered entries in order. -/
def renderHistory : List (List (String × Val)) → Except String (List String)
  | [] => Except.ok []
  | msg :: rest =>
    match renderTurn msg with
    | Except.error e => Except.error e
    | Except.ok r =>
      match renderHistory rest with
      | Except.error e => Except.error e
      | Except.ok rs =>
        Except.ok (match r with | Option.some s => s :: rs | Option.none => rs)

/-- Python `l[-n:]`: the last `n` elements (the whole list when shorter). -/
def lastN {α : Type} (n : Nat) (l : List α) : List α :=
  l.drop (l.length - n)

/-- Lines 151-163: the `parts` assembly and `"".join(parts)` producing the
user message. -/
def user_content (question context : String) (history : List (List (String × Val))) : Except String String :=
  match history with
  | [] =>
    Except.ok (String.join (["CV context:\n" ++ context, "\n"]
      ++ ["Current question: " ++ pyStripS question]))
  | _ :: _ =>
    match renderHistory (lastN 6 history) with
    | Except.error e => Except.error e
    | Except.ok rendered =>
      Except.ok (String.join (["CV context:\n" ++ context, "\n"]
        ++ (["Recent conversation:\n"] ++ rendered ++ ["\n"])
        ++ ["Current question: " ++ pyStripS question]))

/-- How far a run of `answer_question` gets: a raised exception, a value
returned with no network call, or the single outbound API request with
its assembled user message. -/
inductive Outcome where
  | raised : String → Outcome
  | returned : String → Outcome
  | apiRequest : String → Outcome
deriving DecidableEq

/-- Lines 140-166: `answer_question` up to the network call. -/
def answer_question (env : Option String) (question : String)
    (data : List (String × Val)) (history : List (List (String × Val))) : Outcome :=
  if keyMissing env then
    Outcome.raised "GROQ_API_KEY is not set. Add it to backend/.env"
  else
    match build_context data with
    | Except.error e => Outcome.raised e
    | Except.ok context =>
      if context == "" then Outcome.returned "No CV data available to answer from."
      else
        match user_content question context history with
        | Except.error e => Outcome.raised e
        | Except.ok uc => Outcome.apiRequest uc

example : answer_question Option.none "q" [] [] =
    Outcome.raised "GROQ_API_KEY is not set. Add it to backend/.env" := by rfl

example : answer_question (Option.some "k") "q" [] [] =
    Outcome.returned "No CV data available to answer from." := by rfl

example :
    answer_question (Option.some "k") " q "
      [("profile", Val.dict [("name", Val.str "Mayar")])]
      [[("role", Val.str "Assistant"), ("content", Val.str "hi ")]] =
    Outcome.apiRequest
      "CV context:\n## Profile\nName: Mayar\nJob title:\nRecent conversation:\nAssistant: hi\n\nCurrent question: q" := by rfl

/-! ## Lemmas about the normalizer scan -/

theorem collectRun_length_le (ls : List (List Char)) : (collectRun ls).length ≤ ls.length := by
  induction ls with
  | nil => simp [collectRun]
  | cons l ls ih =>
    simp only [collectRun]
    split
    · simp
    · simpa using Nat.succ_le_succ ih

theorem collapseGoFuel_congr : ∀ (f₁ f₂ : Nat) (lines : List (List Char)),
    lines.length ≤ f₁ → lines.length ≤ f₂ →
    collapseGoFuel f₁ lines = collapseGoFuel f₂ lines := by
  intro f₁
  induction f₁ with
  | zero =>
    intro f₂ lines h₁ _
    have hnil : lines = [] := List.length_eq_zero.mp (Nat.le_zero.mp h₁)
    subst hnil
    cases f₂ <;> rfl
  | succ f ih =>
    intro f₂ lines h₁ h₂
    match lines, f₂ with
    | [], f₂ => cases f₂ <;> rfl
    | l :: ls, 0 => simp at h₂
    | l :: ls, f₂ + 1 =>
      have hls₁ : ls.length ≤ f := by simpa using h₁
      have hls₂ : ls.length ≤ f₂ := by simpa using h₂
      simp only [collapseGoFuel]
      rw [ih f₂ ls hls₁ hls₂,
        ih f₂ (ls.drop ((pyStripL l :: collectRun ls).length - 1))
          (le_trans (by simp) hls₁) (le_trans (by simp) hls₂)]

theorem collapseGoFuel_eq_collapseLines (f : Nat) (lines : List (List Char))
    (h : lines.length ≤ f) : collapseGoFuel f lines = collapseLines lines :=
  collapseGoFuel_congr f lines.length lines h (Nat.le_refl _)

/-- Claim C1, amended: a header-like trimmed line (non-empty, containing a
space, under 45 characters, not starting with a bullet or hash) never begins
a comma-joined run: when the scan reaches it as the current line it is
emitted unchanged as its own line and the scan advances by one. (The
unamended claim is refuted by `c1_counterexample`: such a line can still be
absorbed into a run that started before it, because the collection loop does
not re-check the header condition.) -/
theorem c1_header_own_line : ∀ (l : List Char) (ls : List (List Char)),
    isHeaderLine (pyStripL l) = true →
    collapseLines (l :: ls) = l :: collapseLines ls := by
  intro l ls h
  simp [collapseLines, collapseGoFuel, h]

theorem c1_header_own_line_witness :
    isHeaderLine (pyStripL ("Technical Skills".data)) = true ∧
    collapseLines ["Technical Skills".data] = ["Technical Skills".data] := by
  constructor
  · decide
  · exact c1_header_own_line ("Technical Skills".data) [] (by decide)

/-- Claim C1, counterexample: the header-like line `"Technical Skills"`
(non-empty, contains a space, 16 < 45 characters, no leading bullet) is
merged mid-run by `_collapse_skill_lines` when two mergeable lines precede
it, so it is not emitted as its own line. -/
theorem c1_counterexample :
    isHeaderLine (pyStripL ("Technical Skills".data)) = true ∧
    _collapse_skill_lines "a\nb\nTechnical Skills" = "a, b, Technical Skills" := by
  constructor
  · decide
  · rfl

/-- Claim C2, amended: every line collected into a mergeable run after the
candidate start is, after trimming, non-empty, does not start with `"#"`,
`"-"` or `"*"`, contains no comma, and is at most 55 characters long (the
code breaks only on `len > 55`, so a line of exactly 55 characters is
collected); collection stops at the first line violating any of these
conditions. -/
theorem c2_run_collection : ∀ (lines : List (List Char)) (p : List Char),
    (p ∈ collectRun lines →
      p ≠ [] ∧ startsWith1 '#' p = false ∧ startsWith1 '-' p = false ∧
      startsWith1 '*' p = false ∧ p.contains ',' = false ∧ p.length ≤ 55) ∧
    collectRun lines = (lines.map pyStripL).takeWhile
      (fun s => !(s.isEmpty || startsWith1 '#' s || startsWith1 '-' s ||
                  startsWith1 '*' s || s.contains ',' || decide (55 < s.length))) := by
  intro lines
  induction lines with
  | nil => intro p; simp [collectRun]
  | cons l ls ih =>
    intro p
    by_cases hb : runBreakB (pyStripL l) = true
    · constructor
      · intro hp
        simp only [collectRun] at hp
        rw [if_pos hb] at hp
        simp at hp
      · simp only [collectRun, List.map_cons, List.takeWhile_cons]
        rw [if_pos hb]
        simp only [runBreakB] at hb
        rw [hb]
        rw [if_neg (by simp)]
    · have hb' : runBreakB (pyStripL l) = false := by simpa using hb
      constructor
      · intro hp
        simp only [collectRun] at hp
        rw [if_neg (by simp [hb'])] at hp
        rcases List.mem_cons.mp hp with h | h
        · subst h
          have hbu := hb'
          simp only [runBreakB, Bool.or_eq_false_iff, decide_eq_false_iff_not] at hbu
          obtain ⟨⟨⟨⟨⟨h1, h2⟩, h3⟩, h4⟩, h5⟩, h6⟩ := hbu
          refine ⟨?_, h2, h3, h4, h5, by omega⟩
          intro hnil
          rw [hnil] at h1
          simp at h1
        · exact (ih p).1 h
      · simp only [collectRun, List.map_cons, List.takeWhile_cons]
        rw [if_neg (by simp [hb'])]
        simp only [runBreakB] at hb'
        rw [hb']
        rw [if_pos (by simp)]
        rw [(ih p).2]

theorem c2_run_collection_witness :
    (['P'] ∈ collectRun [['P']]) ∧
    (['P'] ≠ [] ∧ startsWith1 '#' ['P'] = false ∧ startsWith1 '-' ['P'] = false ∧
      startsWith1 '*' ['P'] = false ∧ List.contains ['P'] ',' = false ∧
      List.length ['P'] ≤ 55) := by
  constructor
  · decide
  · exact (c2_run_collection [['P']] ['P']).1 (by decide)

/-- Claim C2, counterexample: a trimmed line of exactly 55 characters is not
under 55 characters, yet the collection loop collects it (the loop breaks
only on `len > 55`), so it is merged into the run. -/
theorem c2_counterexample :
    ¬ (List.replicate 55 'a').length < 55 ∧
    collectRun [['b'], List.replicate 55 'a'] = [['b'], List.replicate 55 'a'] ∧
    collapseLines [['a'], ['b'], List.replicate 55 'a']
      = [joinComma [['a'], ['b'], List.replicate 55 'a']] := by
  refine ⟨by decide, by decide, by decide⟩

/-- Claim C5: at a non-header candidate line, if the collected run (candidate
plus collection) has at least 3 members it is emitted as one line joined with
`", "` and the scan advances past all consumed lines; if the run has exactly
2 members the candidate line is emitted unchanged and the scan advances by
one line, so two short comma-free lines stay two separate output lines
(concrete instance in the last conjunct). -/
theorem c5_merge_threshold : ∀ (l : List Char) (ls : List (List Char)),
    isHeaderLine (pyStripL l) = false →
    looksLikeSingleItem (pyStripL l) = true →
    (3 ≤ (pyStripL l :: collectRun ls).length →
      collapseLines (l :: ls) =
        joinComma (pyStripL l :: collectRun ls)
          :: collapseLines (ls.drop ((pyStripL l :: collectRun ls).length - 1))) ∧
    ((pyStripL l :: collectRun ls).length = 2 →
      collapseLines (l :: ls) = l :: collapseLines ls) ∧
    _collapse_skill_lines "Python\nC++" = "Python\nC++" := by
  intro l ls h1 h2
  refine ⟨?_, ?_, by rfl⟩
  · intro h3
    simp only [List.length_cons] at h3
    simp only [collapseLines, List.length_cons, collapseGoFuel]
    rw [if_neg (by simp [h1]), if_pos (by simp [h2]), if_pos h3,
      collapseGoFuel_eq_collapseLines ls.length _ (by simp)]
    simp [collapseLines]
  · intro h3
    simp only [List.length_cons] at h3
    simp only [collapseLines, List.length_cons, collapseGoFuel]
    rw [if_neg (by simp [h1]), if_pos (by simp [h2]), if_neg (by omega)]

theorem c5_merge_threshold_witness :
    isHeaderLine (pyStripL ['a']) = false ∧
    looksLikeSingleItem (pyStripL ['a']) = true ∧
    (3 ≤ (pyStripL ['a'] :: collectRun [['b'], ['c']]).length →
      collapseLines [['a'], ['b'], ['c']] =
        joinComma (pyStripL ['a'] :: collectRun [['b'], ['c']])
          :: collapseLines (List.drop ((pyStripL ['a'] :: collectRun [['b'], ['c']]).length - 1) [['b'], ['c']])) := by
  refine ⟨by decide, by decide, ?_⟩
  exact (c5_merge_threshold ['a'] [['b'], ['c']] (by decide) (by decide)).1

/-! ## Lemmas for the line-count claim -/

theorem collapseGoFuel_length_le : ∀ (f : Nat) (lines : List (List Char)),
    lines.length ≤ f → (collapseGoFuel f lines).length ≤ lines.length := by
  intro f
  induction f with
  | zero =>
    intro lines h
    have hnil : lines = [] := List.length_eq_zero.mp (Nat.le_zero.mp h)
    subst hnil
    simp [collapseGoFuel]
  | succ f ih =>
    intro lines h
    match lines with
    | [] => simp [collapseGoFuel]
    | l :: ls =>
      have hls : ls.length ≤ f := by simpa using h
      simp only [collapseGoFuel]
      by_cases h1 : isHeaderLine (pyStripL l) = true
      · rw [if_pos h1]
        simpa using Nat.succ_le_succ (ih ls hls)
      · rw [if_neg h1]
        by_cases h2 : looksLikeSingleItem (pyStripL l) = true
        · rw [if_pos h2]
          by_cases h3 : 3 ≤ (pyStripL l :: collectRun ls).length
          · rw [if_pos h3]
            have hdl : (ls.drop ((pyStripL l :: collectRun ls).length - 1)).length ≤ f :=
              le_trans (by simp) hls
            have hrec := ih _ hdl
            simp only [List.length_cons, List.length_drop] at hrec ⊢
            omega
          · rw [if_neg h3]
            simpa using Nat.succ_le_succ (ih ls hls)
        · rw [if_neg h2]
          simpa using Nat.succ_le_succ (ih ls hls)

theorem collapseGoFuel_id_of_not_hasMerge : ∀ (f : Nat) (lines : List (List Char)),
    lines.length ≤ f → hasMergeFuel f lines = false → collapseGoFuel f lines = lines := by
  intro f
  induction f with
  | zero =>
    intro lines h _
    have hnil : lines = [] := List.length_eq_zero.mp (Nat.le_zero.mp h)
    subst hnil
    rfl
  | succ f ih =>
    intro lines h hm
    match lines with
    | [] => rfl
    | l :: ls =>
      have hls : ls.length ≤ f := by simpa using h
      simp only [hasMergeFuel] at hm
      simp only [collapseGoFuel]
      by_cases h1 : isHeaderLine (pyStripL l) = true
      · rw [if_pos h1] at hm ⊢
        rw [ih ls hls hm]
      · rw [if_neg h1] at hm ⊢
        by_cases h2 : looksLikeSingleItem (pyStripL l) = true
        · rw [if_pos h2] at hm ⊢
          by_cases h3 : 3 ≤ (pyStripL l :: collectRun ls).length
          · rw [if_pos h3] at hm
            exact absurd hm (by simp)
          · rw [if_neg h3] at hm ⊢
            rw [ih ls hls hm]
        · rw [if_neg h2] at hm ⊢
          rw [ih ls hls hm]

theorem collapseGoFuel_length_lt_of_hasMerge : ∀ (f : Nat) (lines : List (List Char)),
    lines.length ≤ f → hasMergeFuel f lines = true →
    (collapseGoFuel f lines).length < lines.length := by
  intro f
  induction f with
  | zero =>
    intro lines h hm
    have hnil : lines = [] := List.length_eq_zero.mp (Nat.le_zero.mp h)
    subst hnil
    simp [hasMergeFuel] at hm
  | succ f ih =>
    intro lines h hm
    match lines with
    | [] => simp [hasMergeFuel] at hm
    | l :: ls =>
      have hls : ls.length ≤ f := by simpa using h
      simp only [hasMergeFuel] at hm
      simp only [collapseGoFuel]
      by_cases h1 : isHeaderLine (pyStripL l) = true
      · rw [if_pos h1] at hm ⊢
        simpa using Nat.succ_lt_succ (ih ls hls hm)
      · rw [if_neg h1] at hm ⊢
        by_cases h2 : looksLikeSingleItem (pyStripL l) = true
        · rw [if_pos h2] at hm ⊢
          by_cases h3 : 3 ≤ (pyStripL l :: collectRun ls).length
          · rw [if_pos h3]
            have hk : (collectRun ls).length ≤ ls.length := collectRun_length_le ls
            have hk2 : 2 ≤ (collectRun ls).length := by
              simp only [List.length_cons] at h3
              omega
            have hdl : (ls.drop ((pyStripL l :: collectRun ls).length - 1)).length ≤ f :=
              le_trans (by simp) hls
            have hlen := collapseGoFuel_length_le f _ hdl
            simp only [List.length_cons, List.length_drop] at hlen ⊢
            omega
          · rw [if_neg h3] at hm ⊢
            simpa using Nat.succ_lt_succ (ih ls hls hm)
        · rw [if_neg h2] at hm ⊢
          simpa using Nat.succ_lt_succ (ih ls hls hm)

theorem splitNl_ne_nil : ∀ (cs : List Char), splitNl cs ≠ [] := by
  intro cs
  induction cs with
  | nil => simp [splitNl]
  | cons c cs ih =>
    obtain ⟨q, qs, h⟩ : ∃ q qs, splitNl cs = q :: qs := by
      cases hx : splitNl cs with
      | nil => exact absurd hx ih
      | cons q qs => exact ⟨q, qs, rfl⟩
    simp only [splitNl, h]
    split <;> simp

theorem splitNl_eq_cons (cs : List Char) : ∃ q qs, splitNl cs = q :: qs := by
  cases hx : splitNl cs with
  | nil => exact absurd hx (splitNl_ne_nil cs)
  | cons q qs => exact ⟨q, qs, rfl⟩

theorem splitNl_cons (c : Char) (cs : List Char) (q : List Char) (qs : List (List Char))
    (h : splitNl cs = q :: qs) :
    splitNl (c :: cs) = if c = '\n' then [] :: q :: qs else (c :: q) :: qs := by
  simp only [splitNl, h]
  by_cases hc : c = '\n'
  · simp [hc]
  · simp [hc]

theorem mem_splitNl_not_nl : ∀ (cs : List Char) (p : List Char),
    p ∈ splitNl cs → '\n' ∉ p := by
  intro cs
  induction cs with
  | nil =>
    intro p hp
    simp [splitNl] at hp
    simp [hp]
  | cons c cs ih =>
    intro p hp
    obtain ⟨q, qs, h⟩ := splitNl_eq_cons cs
    rw [splitNl_cons c cs q qs h] at hp
    by_cases hc : c = '\n'
    · rw [if_pos hc] at hp
      rcases List.mem_cons.mp hp with h1 | h1
      · simp [h1]
      · exact ih p (by rw [h]; exact h1)
    · rw [if_neg hc] at hp
      rcases List.mem_cons.mp hp with h1 | h1
      · subst h1
        intro hmem
        rcases List.mem_cons.mp hmem with h2 | h2
        · exact hc h2.symm
        · exact ih q (by rw [h]; exact List.mem_cons_self q qs) h2
      · exact ih p (by rw [h]; exact List.mem_cons.mpr (Or.inr h1))

theorem splitNl_of_not_nl : ∀ (p : List Char), '\n' ∉ p → splitNl p = [p] := by
  intro p
  induction p with
  | nil => intro _; rfl
  | cons c cs ih =>
    intro h
    have hc : ¬ c = '\n' := fun hx => h (by simp [hx])
    have hcs : '\n' ∉ cs := fun hx => h (List.mem_cons.mpr (Or.inr hx))
    rw [splitNl_cons c cs cs [] (ih hcs), if_neg hc]

theorem splitNl_append_nl : ∀ (p : List Char), '\n' ∉ p → ∀ (cs : List Char),
    splitNl (p ++ '\n' :: cs) = p :: splitNl cs := by
  intro p
  induction p with
  | nil =>
    intro _ cs
    obtain ⟨q, qs, h⟩ := splitNl_eq_cons cs
    rw [List.nil_append, splitNl_cons '\n' cs q qs h, if_pos rfl, ← h]
  | cons c p ih =>
    intro h cs
    have hc : ¬ c = '\n' := fun hx => h (by simp [hx])
    have hp : '\n' ∉ p := fun hx => h (List.mem_cons.mpr (Or.inr hx))
    rw [List.cons_append, splitNl_cons c (p ++ '\n' :: cs) p (splitNl cs) (ih hp cs), if_neg hc]

theorem mem_pyStripL (c : Char) (l : List Char) (h : c ∈ pyStripL l) : c ∈ l := by
  simp only [pyStripL, List.mem_reverse] at h
  have h2 : c ∈ (l.dropWhile pyIsSpace).reverse := (List.dropWhile_sublist _).subset h
  rw [List.mem_reverse] at h2
  exact (List.dropWhile_sublist _).subset h2

theorem mem_collectRun : ∀ (ls : List (List Char)) (p : List Char),
    p ∈ collectRun ls → ∃ q, q ∈ ls ∧ p = pyStripL q := by
  intro ls
  induction ls with
  | nil => intro p hp; simp [collectRun] at hp
  | cons l ls ih =>
    intro p hp
    simp only [collectRun] at hp
    by_cases hb : runBreakB (pyStripL l) = true
    · rw [if_pos hb] at hp
      simp at hp
    · rw [if_neg hb] at hp
      rcases List.mem_cons.mp hp with h1 | h1
      · exact ⟨l, List.mem_cons_self l ls, h1⟩
      · obtain ⟨q, hq, hpq⟩ := ih p h1
        exact ⟨q, List.mem_cons.mpr (Or.inr hq), hpq⟩

theorem mem_joinComma : ∀ (ps : List (List Char)) (c : Char),
    c ∈ joinComma ps → c = ',' ∨ c = ' ' ∨ ∃ p, p ∈ ps ∧ c ∈ p := by
  intro ps
  induction ps with
  | nil => intro c hc; simp [joinComma] at hc
  | cons p qs ih =>
    intro c hc
    match qs with
    | [] =>
      simp only [joinComma] at hc
      exact Or.inr (Or.inr ⟨p, List.mem_cons_self p [], hc⟩)
    | q :: qs' =>
      simp only [joinComma] at hc
      rcases List.mem_append.mp hc with h1 | h1
      · exact Or.inr (Or.inr ⟨p, List.mem_cons_self _ _, h1⟩)
      · rcases List.mem_cons.mp h1 with h2 | h2
        · exact Or.inl h2
        · rcases List.mem_cons.mp h2 with h3 | h3
          · exact Or.inr (Or.inl h3)
          · rcases ih c h3 with h4 | h4 | ⟨r, hr, hcr⟩
            · exact Or.inl h4
            · exact Or.inr (Or.inl h4)
            · exact Or.inr (Or.inr ⟨r, List.mem_cons.mpr (Or.inr hr), hcr⟩)

theorem collapseGoFuel_not_nl : ∀ (f : Nat) (lines : List (List Char)),
    (∀ p ∈ lines, '\n' ∉ p) → ∀ q ∈ collapseGoFuel f lines, '\n' ∉ q := by
  intro f
  induction f with
  | zero => intro lines _ q hq; simp [collapseGoFuel] at hq
  | succ f ih =>
    intro lines hcl q hq
    match lines with
    | [] => simp [collapseGoFuel] at hq
    | l :: ls =>
      have hcls : ∀ p ∈ ls, '\n' ∉ p := fun p hp => hcl p (List.mem_cons.mpr (Or.inr hp))
      have hcll : '\n' ∉ l := hcl l (List.mem_cons_self l ls)
      simp only [collapseGoFuel] at hq
      by_cases h1 : isHeaderLine (pyStripL l) = true
      · rw [if_pos h1] at hq
        rcases List.mem_cons.mp hq with h | h
        · subst h; exact hcll
        · exact ih ls hcls q h
      · rw [if_neg h1] at hq
        by_cases h2 : looksLikeSingleItem (pyStripL l) = true
        · rw [if_pos h2] at hq
          by_cases h3 : 3 ≤ (pyStripL l :: collectRun ls).length
          · rw [if_pos h3] at hq
            rcases List.mem_cons.mp hq with h | h
            · subst h
              intro hmem
              rcases mem_joinComma _ '\n' hmem with h4 | h4 | ⟨r, hr, hnr⟩
              · exact absurd h4 (by decide)
              · exact absurd h4 (by decide)
              · rcases List.mem_cons.mp hr with h5 | h5
                · subst h5
                  exact hcll (mem_pyStripL _ _ hnr)
                · obtain ⟨w, hw, hrw⟩ := mem_collectRun ls r h5
                  subst hrw
                  exact hcls w hw (mem_pyStripL _ _ hnr)
            · exact ih _ (fun p hp => hcls p (List.mem_of_mem_drop hp)) q h
          · rw [if_neg h3] at hq
            rcases List.mem_cons.mp hq with h | h
            · subst h; exact hcll
            · exact ih ls hcls q h
        · rw [if_neg h2] at hq
          rcases List.mem_cons.mp hq with h | h
          · subst h; exact hcll
          · exact ih ls hcls q h

theorem collapseGoFuel_cons_ne_nil (f : Nat) (l : List Char) (ls : List (List Char)) :
    collapseGoFuel (f + 1) (l :: ls) ≠ [] := by
  simp only [collapseGoFuel]
  by_cases h1 : isHeaderLine (pyStripL l) = true
  · rw [if_pos h1]; simp
  · rw [if_neg h1]
    by_cases h2 : looksLikeSingleItem (pyStripL l) = true
    · rw [if_pos h2]
      by_cases h3 : 3 ≤ (pyStripL l :: collectRun ls).length
      · rw [if_pos h3]; simp
      · rw [if_neg h3]; simp
    · rw [if_neg h2]; simp

theorem splitNl_joinNl : ∀ (ps : List (List Char)), ps ≠ [] →
    (∀ p ∈ ps, '\n' ∉ p) → splitNl (joinNl ps) = ps := by
  intro ps
  induction ps with
  | nil => intro h _; exact absurd rfl h
  | cons p qs ih =>
    intro _ hclean
    match qs with
    | [] =>
      simp only [joinNl]
      exact splitNl_of_not_nl p (hclean p (List.mem_cons_self p []))
    | q :: qs' =>
      simp only [joinNl]
      rw [splitNl_append_nl p (hclean p (List.mem_cons_self p (q :: qs')))]
      rw [ih (by simp) (fun r hr => hclean r (List.mem_cons.mpr (Or.inr hr)))]

/-- Claim C9: splitting the output of `_collapse_skill_lines` on newlines
never yields more lines than splitting the input, and yields exactly as many
if and only if the scan never collects a run of 3 or more mergeable lines
(`hasMerge` mirrors the scan's merge branch). -/
theorem c9_line_count : ∀ (text : String),
    (splitNl ((_collapse_skill_lines text).data)).length ≤ (splitNl text.data).length ∧
    ((splitNl ((_collapse_skill_lines text).data)).length = (splitNl text.data).length ↔
      hasMerge (splitNl text.data) = false) := by
  intro text
  have hdata : (_collapse_skill_lines text).data
      = joinNl (collapseLines (splitNl text.data)) := rfl
  obtain ⟨q, qs, hq⟩ := splitNl_eq_cons text.data
  have hne : collapseLines (splitNl text.data) ≠ [] := by
    rw [hq]
    show collapseGoFuel (q :: qs).length (q :: qs) ≠ []
    simp only [List.length_cons]
    exact collapseGoFuel_cons_ne_nil qs.length q qs
  have hclean : ∀ p ∈ collapseLines (splitNl text.data), '\n' ∉ p :=
    fun p hp =>
      collapseGoFuel_not_nl _ _ (fun r hr => mem_splitNl_not_nl text.data r hr) p hp
  have hsj : splitNl ((_collapse_skill_lines text).data)
      = collapseLines (splitNl text.data) := by
    rw [hdata]
    exact splitNl_joinNl _ hne hclean
  rw [hsj]
  constructor
  · exact collapseGoFuel_length_le _ _ (Nat.le_refl _)
  · constructor
    · intro heq
      by_cases hm : hasMerge (splitNl text.data) = true
      · have hlt := collapseGoFuel_length_lt_of_hasMerge _ _ (Nat.le_refl _) hm
        have : (collapseLines (splitNl text.data)).length < (splitNl text.data).length := hlt
        omega
      · simpa using hm
    · intro hm
      have hid : collapseLines (splitNl text.data) = splitNl text.data :=
        collapseGoFuel_id_of_not_hasMerge _ _ (Nat.le_refl _) hm
      rw [hid]

/-! ## The credential guard and the empty-context fallback -/

/-- Claim C3: when the `GROQ_API_KEY` environment value is absent or blank
(empty after stripping whitespace), `answer_question` raises the
configuration `ValueError` with its exact message — an outcome distinct from
`Outcome.apiRequest`, so no network call is made — for every question, CV
data and history. -/
theorem c3_missing_credential : ∀ (env : Option String) (question : String)
    (data : List (String × Val)) (history : List (List (String × Val))),
    (env = Option.none ∨ ∃ s, env = Option.some s ∧ pyStripS s = "") →
    answer_question env question data history =
      Outcome.raised "GROQ_API_KEY is not set. Add it to backend/.env" := by
  intro env q d h hyp
  have hk : keyMissing env = true := by
    rcases hyp with h1 | ⟨s, h2, hs⟩
    · rw [h1]; rfl
    · rw [h2]
      simp [keyMissing, hs]
  simp [answer_question, hk]

theorem c3_missing_credential_witness :
    ((Option.none : Option String) = Option.none ∨
      ∃ s, (Option.none : Option String) = Option.some s ∧ pyStripS s = "") ∧
    answer_question Option.none "Tell me about Mayar" [] [] =
      Outcome.raised "GROQ_API_KEY is not set. Add it to backend/.env" :=
  ⟨Or.inl rfl, c3_missing_credential Option.none "Tell me about Mayar" [] [] (Or.inl rfl)⟩

/-- Claim C4: with a non-blank credential, whenever `build_context` yields
the empty string, `answer_question` returns the literal fallback string as
an `Outcome.returned` (no exception, and no `Outcome.apiRequest`, hence no
network call), for every question and history. -/
theorem c4_empty_context_fallback : ∀ (s : String) (question : String)
    (data : List (String × Val)) (history : List (List (String × Val))),
    pyStripS s ≠ "" →
    build_context data = Except.ok "" →
    answer_question (Option.some s) question data history =
      Outcome.returned "No CV data available to answer from." := by
  intro s q d h hs hb
  have hs' : ¬ s = "" := by
    intro h0
    rw [h0] at hs
    exact hs rfl
  have hk : keyMissing (Option.some s) = false := by
    simp [keyMissing, hs, hs']
  simp [answer_question, hk, hb]

theorem c4_empty_context_fallback_witness :
    pyStripS "gsk-key" ≠ "" ∧
    build_context [] = Except.ok "" ∧
    answer_question (Option.some "gsk-key") "Tell me about Mayar" [] [] =
      Outcome.returned "No CV data available to answer from." :=
  ⟨by decide, rfl,
    c4_empty_context_fallback "gsk-key" "Tell me about Mayar" [] [] (by decide) rfl⟩

/-- Claim C8: the credential check precedes the empty-context fallback: for
CV data whose built context is empty, an absent or blank credential makes
`answer_question` raise the configuration error, not return the fallback
string. -/
theorem c8_credential_before_fallback : ∀ (env : Option String) (question : String)
    (data : List (String × Val)) (history : List (List (String × Val))),
    (env = Option.none ∨ ∃ s, env = Option.some s ∧ pyStripS s = "") →
    build_context data = Except.ok "" →
    answer_question env question data history =
      Outcome.raised "GROQ_API_KEY is not set. Add it to backend/.env" ∧
    answer_question env question data history ≠
      Outcome.returned "No CV data available to answer from." := by
  intro env q d h hyp _
  have hk : keyMissing env = true := by
    rcases hyp with h1 | ⟨s, h2, hs⟩
    · rw [h1]; rfl
    · rw [h2]
      simp [keyMissing, hs]
  constructor
  · simp [answer_question, hk]
  · simp [answer_question, hk]

theorem c8_credential_before_fallback_witness :
    ((Option.none : Option String) = Option.none ∨
      ∃ s, (Option.none : Option String) = Option.some s ∧ pyStripS s = "") ∧
    build_context [] = Except.ok "" ∧
    (answer_question Option.none "q" [] [] =
      Outcome.raised "GROQ_API_KEY is not set. Add it to backend/.env" ∧
    answer_question Option.none "q" [] [] ≠
      Outcome.returned "No CV data available to answer from.") :=
  ⟨Or.inl rfl, rfl, c8_credential_before_fallback Option.none "q" [] [] (Or.inl rfl) rfl⟩

/-! ## The history window -/

theorem pyOr_of_truthy (a b : Val) (h : truthy a = true) : pyOr a b = a := by
  simp [pyOr, h]

theorem pyOr_of_falsy (a b : Val) (h : truthy a = false) : pyOr a b = b := by
  simp [pyOr, h]

theorem renderTurn_str_str (msg : List (String × Val)) (r c : String)
    (hr : pyGet msg "role" = Val.str r) (hc : pyGet msg "content" = Val.str c) :
    renderTurn msg = Except.ok (if pyStripS c = "" then Option.none
      else Option.some ((if pyLower r = "assistant" then "Assistant" else "User")
        ++ ": " ++ pyStripS c ++ "\n")) := by
  by_cases hr0 : r = ""
  · subst hr0
    have h1 : pyOr (pyGet msg "role") (Val.str "user") = Val.str "user" := by
      rw [hr]; rfl
    have h2 : pyOr (pyGet msg "content") (Val.str "") = Val.str c := by
      by_cases hc0 : c = ""
      · subst hc0; rw [hc]; rfl
      · rw [hc]
        exact pyOr_of_truthy _ _ (by simp [truthy, hc0])
    simp only [renderTurn, h1, h2]
    by_cases hcc : pyStripS c = ""
    · simp [hcc]
    · rw [if_neg (show ¬((pyStripS c == "") = true) by simpa using hcc),
        if_neg hcc,
        if_neg (show ¬((pyLower "user" == "assistant") = true) by decide),
        if_neg (show ¬(pyLower "" = "assistant") by decide)]
  · have h1 : pyOr (pyGet msg "role") (Val.str "user") = Val.str r := by
      rw [hr]
      exact pyOr_of_truthy _ _ (by simp [truthy, hr0])
    have h2 : pyOr (pyGet msg "content") (Val.str "") = Val.str c := by
      by_cases hc0 : c = ""
      · subst hc0; rw [hc]; rfl
      · rw [hc]
        exact pyOr_of_truthy _ _ (by simp [truthy, hc0])
    simp only [renderTurn, h1, h2]
    by_cases hcc : pyStripS c = ""
    · simp [hcc]
    · rw [if_neg (by simpa using hcc), if_neg hcc]
      by_cases ha : pyLower r = "assistant"
      · rw [if_pos (by simpa using ha), if_pos ha]
      · rw [if_neg (by simpa using ha), if_neg ha]

theorem renderTurn_missing_role (msg : List (String × Val)) (c : String)
    (hr : pyGet msg "role" = Val.none) (hc : pyGet msg "content" = Val.str c) :
    renderTurn msg = Except.ok (if pyStripS c = "" then Option.none
      else Option.some ("User: " ++ pyStripS c ++ "\n")) := by
  have h1 : pyOr (pyGet msg "role") (Val.str "user") = Val.str "user" := by
    rw [hr]; rfl
  have h2 : pyOr (pyGet msg "content") (Val.str "") = Val.str c := by
    by_cases hc0 : c = ""
    · subst hc0; rw [hc]; rfl
    · rw [hc]
      exact pyOr_of_truthy _ _ (by simp [truthy, hc0])
  simp only [renderTurn, h1, h2]
  by_cases hcc : pyStripS c = ""
  · simp [hcc]
  · rw [if_neg (by simpa using hcc), if_neg hcc,
      if_neg (by decide : ¬ (pyLower "user" == "assistant") = true)]
    rfl

theorem renderTurn_missing_content (msg : List (String × Val)) (r : String)
    (hr : pyGet msg "role" = Val.str r) (hc : pyGet msg "content" = Val.none) :
    renderTurn msg = Except.ok Option.none := by
  have h2 : pyOr (pyGet msg "content") (Val.str "") = Val.str "" := by
    rw [hc]; rfl
  by_cases hr0 : r = ""
  · subst hr0
    have h1 : pyOr (pyGet msg "role") (Val.str "user") = Val.str "user" := by
      rw [hr]; rfl
    simp [renderTurn, h1, h2, pyStripS, pyStripL]
  · have h1 : pyOr (pyGet msg "role") (Val.str "user") = Val.str r := by
      rw [hr]
      exact pyOr_of_truthy _ _ (by simp [truthy, hr0])
    simp [renderTurn, h1, h2, pyStripS, pyStripL]

/-- Claim C6: for a non-empty history, the assembled user message is the
concatenation of the CV-context block, a `"Recent conversation:"` section
made of the renderings of exactly the last (at most) 6 history entries in
order, and the final current-question line; string-role entries render as
`"Assistant: ..."` exactly when the role lower-cases to `"assistant"` and as
`"User: ..."` otherwise, entries with a missing role render as `"User: ..."`,
entries whose content strips to empty (or is missing) are skipped; with 10
prior turns the message equals the one built from the last 6 alone. -/
theorem c6_history_window : ∀ (q c : String) (h : List (List (String × Val))) (uc : String),
    h ≠ [] →
    user_content q c h = Except.ok uc →
    (∃ rendered, renderHistory (lastN 6 h) = Except.ok rendered ∧
      uc = String.join (["CV context:\n" ++ c, "\n", "Recent conversation:\n"]
        ++ rendered ++ ["\n", "Current question: " ++ pyStripS q])) ∧
    lastN 6 h = h.drop (h.length - 6) ∧
    (lastN 6 h).length ≤ 6 ∧
    (h.length = 10 → user_content q c h = user_content q c (h.drop 4)) ∧
    (∀ (msg : List (String × Val)) (r c' : String),
      pyGet msg "role" = Val.str r → pyGet msg "content" = Val.str c' →
      renderTurn msg = Except.ok (if pyStripS c' = "" then Option.none
        else Option.some ((if pyLower r = "assistant" then "Assistant" else "User")
          ++ ": " ++ pyStripS c' ++ "\n"))) ∧
    (∀ (msg : List (String × Val)) (c' : String),
      pyGet msg "role" = Val.none → pyGet msg "content" = Val.str c' →
      renderTurn msg = Except.ok (if pyStripS c' = "" then Option.none
        else Option.some ("User: " ++ pyStripS c' ++ "\n"))) ∧
    (∀ (msg : List (String × Val)) (r : String),
      pyGet msg "role" = Val.str r → pyGet msg "content" = Val.none →
      renderTurn msg = Except.ok Option.none) := by
  intro q c h uc hne huc
  match h with
  | m :: rest =>
    refine ⟨?_, rfl, ?_, ?_, renderTurn_str_str, renderTurn_missing_role,
      renderTurn_missing_content⟩
    · simp only [user_content] at huc
      match hr : renderHistory (lastN 6 (m :: rest)) with
      | Except.error e =>
        rw [hr] at huc
        exact absurd huc (by simp)
      | Except.ok rendered =>
        rw [hr] at huc
        refine ⟨rendered, rfl, ?_⟩
        have huc' := huc
        simp only [Except.ok.injEq] at huc'
        rw [← huc']
        simp
    · simp only [lastN, List.length_drop]
      omega
    · intro hlen
      have h4 : lastN 6 (m :: rest) = (m :: rest).drop 4 := by
        simp only [lastN, hlen]
      obtain ⟨a, as, hd⟩ : ∃ a as, (m :: rest).drop 4 = a :: as := by
        cases hx : (m :: rest).drop 4 with
        | nil =>
          have : ((m :: rest).drop 4).length = 0 := by rw [hx]; rfl
          rw [List.length_drop, hlen] at this
          omega
        | cons a as => exact ⟨a, as, rfl⟩
      have hlen6 : (a :: as).length = 6 := by
        rw [← hd, List.length_drop, hlen]
      have h6 : lastN 6 (a :: as) = a :: as := by
        simp only [lastN, hlen6]
        rfl
      rw [hd]
      simp only [user_content]
      rw [h4, hd, h6]

theorem c6_history_window_witness :
    ∃ rendered,
      renderHistory (lastN 6 [[("role", Val.str "user"), ("content", Val.str "hi")]])
        = Except.ok rendered ∧
      "CV context:\nctx\nRecent conversation:\nUser: hi\n\nCurrent question: q" =
        String.join (["CV context:\n" ++ "ctx", "\n", "Recent conversation:\n"]
          ++ rendered ++ ["\n", "Current question: " ++ pyStripS "q"]) :=
  (c6_history_window "q" "ctx" [[("role", Val.str "user"), ("content", Val.str "hi")]]
    "CV context:\nctx\nRecent conversation:\nUser: hi\n\nCurrent question: q"
    (List.cons_ne_nil _ _) (by rfl)).1

/-! ## Section structure of the context builder -/

theorem truthy_pyOr_dict (a : Val) : truthy (pyOr a (Val.dict [])) = truthy a := by
  by_cases h : truthy a = true
  · rw [pyOr_of_truthy a _ h]
  · have h' : truthy a = false := by simpa using h
    rw [pyOr_of_falsy a _ h', h']
    rfl

theorem truthy_pyOr_list (a : Val) : truthy (pyOr a (Val.list [])) = truthy a := by
  by_cases h : truthy a = true
  · rw [pyOr_of_truthy a _ h]
  · have h' : truthy a = false := by simpa using h
    rw [pyOr_of_falsy a _ h', h']
    rfl

theorem profileParts_ok (v : Val) (ps : List String) (h : profileParts v = Except.ok ps) :
    (truthy v = true → ps.head? = Option.some "## Profile") ∧
    (truthy v = false → ps = []) := by
  by_cases hv : truthy v = true
  · refine ⟨fun _ => ?_, fun hvf => ?_⟩
    · cases hd : asDict v with
      | error e => simp [profileParts, hv, hd] at h
      | ok p =>
        cases hc : contactLines (pyOr (pyGet p "contact") (Val.dict [])) with
        | error e => simp [profileParts, hv, hd, hc] at h
        | ok cs =>
          cases hl : linkLines (pyOr (pyGet p "links") (Val.dict [])) with
          | error e => simp [profileParts, hv, hd, hc, hl] at h
          | ok lks =>
            simp only [profileParts, hv, if_true, hd, hc, hl, Except.ok.injEq] at h
            rw [← h]
            rfl
    · rw [hvf] at hv
      simp at hv
  · have hv' : truthy v = false := by simpa using hv
    refine ⟨fun hvt => absurd hvt hv, fun _ => ?_⟩
    simp only [profileParts, hv', if_false, Bool.false_eq_true, Except.ok.injEq] at h
    exact h.symm

theorem experienceParts_ok (v : Val) (ps : List String)
    (h : experienceParts v = Except.ok ps) :
    (truthy v = true → ps.head? = Option.some "## Experience") ∧
    (truthy v = false → ps = []) := by
  by_cases hv : truthy v = true
  · refine ⟨fun _ => ?_, fun hvf => ?_⟩
    · cases v with
      | list jobs =>
        cases he : expEntries jobs with
        | error e => simp [experienceParts, hv, he] at h
        | ok entries =>
          simp only [experienceParts, hv, if_true, he, Except.ok.injEq] at h
          rw [← h]
          rfl
      | none => simp [experienceParts, hv] at h
      | str s => simp [experienceParts, hv] at h
      | dict kvs => simp [experienceParts, hv] at h
    · rw [hvf] at hv
      simp at hv
  · have hv' : truthy v = false := by simpa using hv
    refine ⟨fun hvt => absurd hvt hv, fun _ => ?_⟩
    simp only [experienceParts, hv', if_false, Bool.false_eq_true, Except.ok.injEq] at h
    exact h.symm

theorem projectsParts_ok (v : Val) (ps : List String)
    (h : projectsParts v = Except.ok ps) :
    (truthy v = true → ps.head? = Option.some "## Projects") ∧
    (truthy v = false → ps = []) := by
  by_cases hv : truthy v = true
  · refine ⟨fun _ => ?_, fun hvf => ?_⟩
    · cases v with
      | list prjs =>
        cases he : projEntries prjs with
        | error e => simp [projectsParts, hv, he] at h
        | ok entries =>
          simp only [projectsParts, hv, if_true, he, Except.ok.injEq] at h
          rw [← h]
          rfl
      | none => simp [projectsParts, hv] at h
      | str s => simp [projectsParts, hv] at h
      | dict kvs => simp [projectsParts, hv] at h
    · rw [hvf] at hv
      simp at hv
  · have hv' : truthy v = false := by simpa using hv
    refine ⟨fun hvt => absurd hvt hv, fun _ => ?_⟩
    simp only [projectsParts, hv', if_false, Bool.false_eq_true, Except.ok.injEq] at h
    exact h.symm

theorem educationParts_ok (v : Val) (ps : List String)
    (h : educationParts v = Except.ok ps) :
    (truthy v = true → ps.head? = Option.some "## Education") ∧
    (truthy v = false → ps = []) := by
  by_cases hv : truthy v = true
  · refine ⟨fun _ => ?_, fun hvf => ?_⟩
    · cases v with
      | list es =>
        cases he : eduEntries es with
        | error e => simp [educationParts, hv, he] at h
        | ok entries =>
          simp only [educationParts, hv, if_true, he, Except.ok.injEq] at h
          rw [← h]
          rfl
      | none => simp [educationParts, hv] at h
      | str s => simp [educationParts, hv] at h
      | dict kvs => simp [educationParts, hv] at h
    · rw [hvf] at hv
      simp at hv
  · have hv' : truthy v = false := by simpa using hv
    refine ⟨fun hvt => absurd hvt hv, fun _ => ?_⟩
    simp only [educationParts, hv', if_false, Bool.false_eq_true, Except.ok.injEq] at h
    exact h.symm

theorem skillsParts_spec (v : Val) :
    ((truthy v && isDictB v) = true →
      (skillsParts (pyOr v (Val.dict []))).head? = Option.some "## Skills") ∧
    ((truthy v && isDictB v) = false → skillsParts (pyOr v (Val.dict [])) = []) := by
  cases v with
  | none => exact ⟨fun h => by simp [truthy] at h, fun _ => rfl⟩
  | str s =>
    refine ⟨fun h => by simp [isDictB] at h, fun _ => ?_⟩
    by_cases hs : truthy (Val.str s) = true
    · rw [pyOr_of_truthy _ _ hs]
      rfl
    · rw [pyOr_of_falsy _ _ (by simpa using hs)]
      rfl
  | list vs =>
    refine ⟨fun h => by simp [isDictB] at h, fun _ => ?_⟩
    by_cases hs : truthy (Val.list vs) = true
    · rw [pyOr_of_truthy _ _ hs]
      rfl
    · rw [pyOr_of_falsy _ _ (by simpa using hs)]
      rfl
  | dict kvs =>
    cases kvs with
    | nil => exact ⟨fun h => by simp [truthy] at h, fun _ => rfl⟩
    | cons kv kvs =>
      refine ⟨fun _ => ?_, fun hf => ?_⟩
      · rw [pyOr_of_truthy _ _ (by simp [truthy])]
        rfl
      · simp [truthy, isDictB] at hf

/-- Claim C7: whenever `build_context` succeeds, its `parts` list is the
concatenation of the five section blocks in the fixed order Profile,
Experience, Projects, Education, Skills; each block is empty exactly when
its top-level field is falsy (for skills: falsy or not a dict) and otherwise
starts with its `"## ..."` header, so there is one labeled section per
present field; and the output is deterministic in the input. -/
theorem c7_section_order : ∀ (data : List (String × Val)) (parts : List String),
    contextParts data = Except.ok parts →
    ∃ pr ex pj ed,
      profileParts (pyOr (pyGet data "profile") (Val.dict [])) = Except.ok pr ∧
      experienceParts (pyOr (pyGet data "experience") (Val.list [])) = Except.ok ex ∧
      projectsParts (pyOr (pyGet data "projects") (Val.list [])) = Except.ok pj ∧
      educationParts (pyOr (pyGet data "education") (Val.list [])) = Except.ok ed ∧
      parts = pr ++ ex ++ pj ++ ed
        ++ skillsParts (pyOr (pyGet data "skills") (Val.dict [])) ∧
      (truthy (pyGet data "profile") = true → pr.head? = Option.some "## Profile") ∧
      (truthy (pyGet data "profile") = false → pr = []) ∧
      (truthy (pyGet data "experience") = true → ex.head? = Option.some "## Experience") ∧
      (truthy (pyGet data "experience") = false → ex = []) ∧
      (truthy (pyGet data "projects") = true → pj.head? = Option.some "## Projects") ∧
      (truthy (pyGet data "projects") = false → pj = []) ∧
      (truthy (pyGet data "education") = true → ed.head? = Option.some "## Education") ∧
      (truthy (pyGet data "education") = false → ed = []) ∧
      ((truthy (pyGet data "skills") && isDictB (pyGet data "skills")) = true →
        (skillsParts (pyOr (pyGet data "skills") (Val.dict []))).head?
          = Option.some "## Skills") ∧
      ((truthy (pyGet data "skills") && isDictB (pyGet data "skills")) = false →
        skillsParts (pyOr (pyGet data "skills") (Val.dict [])) = []) ∧
      (∀ d' : List (String × Val), d' = data → build_context d' = build_context data) := by
  intro data parts h
  cases hp : profileParts (pyOr (pyGet data "profile") (Val.dict [])) with
  | error e => simp [contextParts, hp] at h
  | ok pr =>
  cases hx : experienceParts (pyOr (pyGet data "experience") (Val.list [])) with
  | error e => simp [contextParts, hp, hx] at h
  | ok ex =>
  cases hpj : projectsParts (pyOr (pyGet data "projects") (Val.list [])) with
  | error e => simp [contextParts, hp, hx, hpj] at h
  | ok pj =>
  cases hed : educationParts (pyOr (pyGet data "education") (Val.list [])) with
  | error e => simp [contextParts, hp, hx, hpj, hed] at h
  | ok ed =>
    simp only [contextParts, hp, hx, hpj, hed, Except.ok.injEq] at h
    refine ⟨pr, ex, pj, ed, rfl, rfl, rfl, rfl, h.symm, ?_, ?_, ?_, ?_, ?_, ?_, ?_, ?_,
      (skillsParts_spec (pyGet data "skills")).1, (skillsParts_spec (pyGet data "skills")).2,
      fun d' hd' => by rw [hd']⟩
    · intro ht
      exact (profileParts_ok _ _ hp).1 (by rw [truthy_pyOr_dict]; exact ht)
    · intro ht
      exact (profileParts_ok _ _ hp).2 (by rw [truthy_pyOr_dict]; exact ht)
    · intro ht
      exact (experienceParts_ok _ _ hx).1 (by rw [truthy_pyOr_list]; exact ht)
    · intro ht
      exact (experienceParts_ok _ _ hx).2 (by rw [truthy_pyOr_list]; exact ht)
    · intro ht
      exact (projectsParts_ok _ _ hpj).1 (by rw [truthy_pyOr_list]; exact ht)
    · intro ht
      exact (projectsParts_ok _ _ hpj).2 (by rw [truthy_pyOr_list]; exact ht)
    · intro ht
      exact (educationParts_ok _ _ hed).1 (by rw [truthy_pyOr_list]; exact ht)
    · intro ht
      exact (educationParts_ok _ _ hed).2 (by rw [truthy_pyOr_list]; exact ht)

theorem c7_section_order_witness :
    contextParts [("profile", Val.dict [("name", Val.str "Mayar")]),
        ("skills", Val.dict [("AI", Val.str "LLMs")])]
      = Except.ok ["## Profile", "Name: Mayar", "Job title: ", "",
          "## Skills", "AI: LLMs"] ∧
    ∃ pr ex pj ed,
      profileParts (pyOr (pyGet [("profile", Val.dict [("name", Val.str "Mayar")]),
          ("skills", Val.dict [("AI", Val.str "LLMs")])] "profile") (Val.dict []))
        = Except.ok pr ∧
      experienceParts (pyOr (pyGet [("profile", Val.dict [("name", Val.str "Mayar")]),
          ("skills", Val.dict [("AI", Val.str "LLMs")])] "experience") (Val.list []))
        = Except.ok ex ∧
      projectsParts (pyOr (pyGet [("profile", Val.dict [("name", Val.str "Mayar")]),
          ("skills", Val.dict [("AI", Val.str "LLMs")])] "projects") (Val.list []))
        = Except.ok pj ∧
      educationParts (pyOr (pyGet [("profile", Val.dict [("name", Val.str "Mayar")]),
          ("skills", Val.dict [("AI", Val.str "LLMs")])] "education") (Val.list []))
        = Except.ok ed ∧
      ["## Profile", "Name: Mayar", "Job title: ", "", "## Skills", "AI: LLMs"]
        = pr ++ ex ++ pj ++ ed
          ++ skillsParts (pyOr (pyGet [("profile", Val.dict [("name", Val.str "Mayar")]),
              ("skills", Val.dict [("AI", Val.str "LLMs")])] "skills") (Val.dict [])) := by
  constructor
  · rfl
  · obtain ⟨pr, ex, pj, ed, h1, h2, h3, h4, h5, _⟩ :=
      c7_section_order [("profile", Val.dict [("name", Val.str "Mayar")]),
        ("skills", Val.dict [("AI", Val.str "LLMs")])]
        ["## Profile", "Name: Mayar", "Job title: ", "", "## Skills", "AI: LLMs"] (by rfl)
    exact ⟨pr, ex, pj, ed, h1, h2, h3, h4, h5⟩

/-! ## Falsy top-level fields -/

theorem pyGet_cons_self (k : String) (v : Val) (d : List (String × Val)) :
    pyGet ((k, v) :: d) k = v := by
  simp [pyGet, List.find?]

theorem pyGet_cons_ne (kv : String × Val) (d : List (String × Val)) (k' : String)
    (h : ¬ kv.1 = k') : pyGet (kv :: d) k' = pyGet d k' := by
  simp only [pyGet, List.find?]
  rw [show (kv.1 == k') = false by simpa using h]

theorem pyGet_cons_found (kv : String × Val) (d : List (String × Val)) (k' : String)
    (h : (kv.1 == k') = true) : pyGet (kv :: d) k' = kv.2 := by
  simp [pyGet, List.find?, h]

theorem pyGet_filter_self (d : List (String × Val)) (k : String) :
    pyGet (d.filter (fun kv => !(kv.1 == k))) k = Val.none := by
  induction d with
  | nil => rfl
  | cons kv d ih =>
    by_cases hk : kv.1 = k
    · rw [List.filter_cons_of_neg (by simp [hk])]
      exact ih
    · rw [List.filter_cons_of_pos (by simpa using hk)]
      rw [pyGet_cons_ne kv _ k hk]
      exact ih

theorem pyGet_filter_ne (d : List (String × Val)) (k k' : String) (h : ¬ k = k') :
    pyGet (d.filter (fun kv => !(kv.1 == k))) k' = pyGet d k' := by
  induction d with
  | nil => rfl
  | cons kv d ih =>
    by_cases hk : kv.1 = k
    · rw [List.filter_cons_of_neg (by simp [hk])]
      rw [ih]
      exact (pyGet_cons_ne kv d k' (by rw [hk]; exact h)).symm
    · rw [List.filter_cons_of_pos (by simpa using hk)]
      cases he : kv.1 == k'
      · rw [pyGet_cons_ne kv _ k' (by simpa using he),
          pyGet_cons_ne kv d k' (by simpa using he)]
        exact ih
      · rw [pyGet_cons_found kv _ k' he, pyGet_cons_found kv d k' he]

theorem contextParts_congr (d₁ d₂ : List (String × Val))
    (h1 : pyOr (pyGet d₁ "profile") (Val.dict []) = pyOr (pyGet d₂ "profile") (Val.dict []))
    (h2 : pyOr (pyGet d₁ "experience") (Val.list []) = pyOr (pyGet d₂ "experience") (Val.list []))
    (h3 : pyOr (pyGet d₁ "projects") (Val.list []) = pyOr (pyGet d₂ "projects") (Val.list []))
    (h4 : pyOr (pyGet d₁ "education") (Val.list []) = pyOr (pyGet d₂ "education") (Val.list []))
    (h5 : pyOr (pyGet d₁ "skills") (Val.dict []) = pyOr (pyGet d₂ "skills") (Val.dict [])) :
    contextParts d₁ = contextParts d₂ := by
  simp only [contextParts, h1, h2, h3, h4, h5]

theorem build_context_congr (d₁ d₂ : List (String × Val))
    (h : contextParts d₁ = contextParts d₂) : build_context d₁ = build_context d₂ := by
  simp only [build_context, h]

theorem contextParts_congr_skills (d₁ d₂ : List (String × Val))
    (h1 : pyOr (pyGet d₁ "profile") (Val.dict []) = pyOr (pyGet d₂ "profile") (Val.dict []))
    (h2 : pyOr (pyGet d₁ "experience") (Val.list []) = pyOr (pyGet d₂ "experience") (Val.list []))
    (h3 : pyOr (pyGet d₁ "projects") (Val.list []) = pyOr (pyGet d₂ "projects") (Val.list []))
    (h4 : pyOr (pyGet d₁ "education") (Val.list []) = pyOr (pyGet d₂ "education") (Val.list []))
    (h5 : skillsParts (pyOr (pyGet d₁ "skills") (Val.dict []))
      = skillsParts (pyOr (pyGet d₂ "skills") (Val.dict []))) :
    contextParts d₁ = contextParts d₂ := by
  simp only [contextParts, h1, h2, h3, h4, h5]

theorem skillsParts_non_dict (v : Val) (h : isDictB v = false) : skillsParts v = [] := by
  cases v with
  | none => rfl
  | str s => rfl
  | list vs => rfl
  | dict kvs => simp [isDictB] at h

theorem build_context_falsy_cons (data : List (String × Val)) (k : String) (v : Val)
    (hv : truthy v = false) :
    build_context ((k, v) :: data)
      = build_context (data.filter (fun kv => !(kv.1 == k))) := by
  apply build_context_congr
  apply contextParts_congr
  · by_cases hk : k = "profile"
    · subst hk
      rw [pyGet_cons_found ("profile", v) data "profile" (by simp), pyGet_filter_self,
        pyOr_of_falsy _ _ hv]
      rfl
    · rw [pyGet_cons_ne (k, v) data "profile" hk, pyGet_filter_ne data k "profile" hk]
  · by_cases hk : k = "experience"
    · subst hk
      rw [pyGet_cons_found ("experience", v) data "experience" (by simp), pyGet_filter_self,
        pyOr_of_falsy _ _ hv]
      rfl
    · rw [pyGet_cons_ne (k, v) data "experience" hk, pyGet_filter_ne data k "experience" hk]
  · by_cases hk : k = "projects"
    · subst hk
      rw [pyGet_cons_found ("projects", v) data "projects" (by simp), pyGet_filter_self,
        pyOr_of_falsy _ _ hv]
      rfl
    · rw [pyGet_cons_ne (k, v) data "projects" hk, pyGet_filter_ne data k "projects" hk]
  · by_cases hk : k = "education"
    · subst hk
      rw [pyGet_cons_found ("education", v) data "education" (by simp), pyGet_filter_self,
        pyOr_of_falsy _ _ hv]
      rfl
    · rw [pyGet_cons_ne (k, v) data "education" hk, pyGet_filter_ne data k "education" hk]
  · by_cases hk : k = "skills"
    · subst hk
      rw [pyGet_cons_found ("skills", v) data "skills" (by simp), pyGet_filter_self,
        pyOr_of_falsy _ _ hv]
      rfl
    · rw [pyGet_cons_ne (k, v) data "skills" hk, pyGet_filter_ne data k "skills" hk]

/-- Claim C10: a present-but-falsy top-level field behaves exactly like an
absent one — `build_context` gives the same (non-erroring) result whether
the key holds a falsy value or is removed from the dict; a non-dict
`skills` value is likewise omitted without error; and a CvData whose five
top-level fields are all present but falsy yields `Except.ok ""` (no
exception). -/
theorem c10_falsy_fields : ∀ (data : List (String × Val)) (k : String) (v : Val),
    (k = "profile" ∨ k = "experience" ∨ k = "projects" ∨ k = "education" ∨ k = "skills") →
    truthy v = false →
    build_context ((k, v) :: data)
      = build_context (data.filter (fun kv => !(kv.1 == k))) ∧
    (∀ v' : Val, isDictB v' = false →
      build_context (("skills", v') :: data)
        = build_context (data.filter (fun kv => !(kv.1 == "skills")))) ∧
    (∀ v₁ v₂ v₃ v₄ v₅ : Val, truthy v₁ = false → truthy v₂ = false → truthy v₃ = false →
      truthy v₄ = false → truthy v₅ = false →
      build_context [("profile", v₁), ("experience", v₂), ("projects", v₃),
        ("education", v₄), ("skills", v₅)] = Except.ok "") := by
  intro data k v _ hv
  refine ⟨build_context_falsy_cons data k v hv, ?_, ?_⟩
  · intro v' hd
    apply build_context_congr
    apply contextParts_congr_skills
    · rw [pyGet_cons_ne ("skills", v') data "profile" (by simp),
        pyGet_filter_ne data "skills" "profile" (by decide)]
    · rw [pyGet_cons_ne ("skills", v') data "experience" (by simp),
        pyGet_filter_ne data "skills" "experience" (by decide)]
    · rw [pyGet_cons_ne ("skills", v') data "projects" (by simp),
        pyGet_filter_ne data "skills" "projects" (by decide)]
    · rw [pyGet_cons_ne ("skills", v') data "education" (by simp),
        pyGet_filter_ne data "skills" "education" (by decide)]
    · rw [pyGet_cons_found ("skills", v') data "skills" (by simp), pyGet_filter_self]
      by_cases hs : truthy v' = true
      · rw [pyOr_of_truthy _ _ hs, skillsParts_non_dict v' hd]
        rfl
      · rw [pyOr_of_falsy _ _ (by simpa using hs)]
        rfl
  · intro v₁ v₂ v₃ v₄ v₅ h1 h2 h3 h4 h5
    have hcongr : build_context [("profile", v₁), ("experience", v₂), ("projects", v₃),
        ("education", v₄), ("skills", v₅)] = build_context ([] : List (String × Val)) := by
      apply build_context_congr
      apply contextParts_congr
      · rw [pyGet_cons_found _ _ _ (by simp), pyOr_of_falsy _ _ h1]
        rfl
      · rw [pyGet_cons_ne _ _ _ (by simp), pyGet_cons_found _ _ _ (by simp),
          pyOr_of_falsy _ _ h2]
        rfl
      · rw [pyGet_cons_ne _ _ _ (by simp), pyGet_cons_ne _ _ _ (by simp),
          pyGet_cons_found _ _ _ (by simp), pyOr_of_falsy _ _ h3]
        rfl
      · rw [pyGet_cons_ne _ _ _ (by simp), pyGet_cons_ne _ _ _ (by simp),
          pyGet_cons_ne _ _ _ (by simp), pyGet_cons_found _ _ _ (by simp),
          pyOr_of_falsy _ _ h4]
        rfl
      · rw [pyGet_cons_ne _ _ _ (by simp), pyGet_cons_ne _ _ _ (by simp),
          pyGet_cons_ne _ _ _ (by simp), pyGet_cons_ne _ _ _ (by simp),
          pyGet_cons_found _ _ _ (by simp), pyOr_of_falsy _ _ h5]
        rfl
    rw [hcongr]
    rfl

theorem c10_falsy_fields_witness :
    truthy (Val.str "") = false ∧
    build_context [("profile", Val.str "")]
      = build_context (List.filter (fun kv => !(kv.1 == "profile")) []) :=
  ⟨rfl, (c10_falsy_fields [] "profile" (Val.str "") (Or.inl rfl) rfl).1⟩

